import Mathlib

/-!
# NoBOLD prompt-execution pipeline: a shallow embedding

This file embeds, in Lean 4, the prompt-execution pipeline of the NoBOLD
repository: the two provider scripts
`tools/Data prep/run_prompts_from_csv_gemini.py` and
`tools/Data prep/run_prompts_from_csv_openai_chat.py`.  Pure Python string
manipulation is modelled on `List Char` / `String`; the stateful retry loops
are modelled as structurally recursive functions over an *adapter oracle*
`Nat → Attempt` giving the outcome of each successive provider invocation;
the CSV writer and the `csv.reader` state machine are modelled at character
level.  All definitions are executable so that theorems can be instantiated
on concrete inputs by `decide`.
-/

namespace NoBOLD

/-! ## Python string primitives

Python `str.strip()`, `str.lower()` and the substring test `k in s`,
modelled on the character list underlying a `String`. -/

/-- The characters removed by Python `str.strip()` (ASCII whitespace). -/
def isPyWS (c : Char) : Bool :=
  c = ' ' || c = '\t' || c = '\n' || c = '\r' || c = '\x0b' || c = '\x0c'

/-- Drop leading and trailing whitespace from a character list. -/
def stripList (cs : List Char) : List Char :=
  ((cs.dropWhile isPyWS).reverse.dropWhile isPyWS).reverse

/-- Python `s.strip()`. -/
def pyStrip (s : String) : String := ⟨stripList s.data⟩

/-- ASCII lower-casing of one character, as Python `str.lower()` does on
the ASCII range (the error messages classified by the scripts are ASCII). -/
def lowerChar (c : Char) : Char :=
  if 'A' ≤ c && c ≤ 'Z' then Char.ofNat (c.toNat + 32) else c

/-- Python `s.lower()`. -/
def pyLower (s : String) : String := ⟨s.data.map lowerChar⟩

/-- `prefixB n h` holds when `n` is a prefix of `h`. -/
def prefixB : List Char → List Char → Bool
  | [], _ => true
  | _ :: _, [] => false
  | a :: as, b :: bs => a == b && prefixB as bs

/-- `infixB n h` holds when `n` occurs contiguously inside `h`. -/
def infixB (needle : List Char) : List Char → Bool
  | [] => prefixB needle []
  | c :: rest => prefixB needle (c :: rest) || infixB needle rest

/-- Python `needle in hay` on strings. -/
def strContains (hay needle : String) : Bool := infixB needle.data hay.data

/-! ## Exceptions and failure classification

Both scripts classify a caught exception `e` by substring tests on
`str(e).lower()`, and record it as `f"{type(e).__name__}: {e}"`. -/

/-- A caught Python exception: its type name and its message `str(e)`. -/
structure PyExn where
  name : String
  msg : String
deriving DecidableEq, Repr

/-- `f"{type(e).__name__}: {e}"`, the string both scripts store in the
`error` field / `last_err` variable. -/
def exnStr (e : PyExn) : String := e.name ++ ": " ++ e.msg

/-- The rate-limit / quota indicators of the Gemini script (line 68). -/
def rateKeywords : List String := ["429", "rate", "quota", "resource exhausted", "busy"]

/-- Gemini script line 68: `any(k in msg for k in [...])` on the lowered
exception message. -/
def isRateLimitedMsg (m : String) : Bool :=
  rateKeywords.any (fun k => strContains (pyLower m) k)

/-- Gemini script line 74: `"safety" in msg or "blocked" in msg` on the
lowered exception message. -/
def isSafetyMsg (m : String) : Bool :=
  strContains (pyLower m) "safety" || strContains (pyLower m) "blocked"

/-! ## Gemini provider: response normalisation (`call_gemini_safe`, lines 46–64) -/

/-- One part of a Gemini candidate's content (`p.text`). -/
structure GeminiPart where
  text : String
deriving DecidableEq, Repr

/-- The content of a Gemini candidate (`c.content.parts`); `content` itself
may be absent (`None`). -/
structure GeminiContent where
  parts : List GeminiPart
deriving DecidableEq, Repr

/-- One Gemini response candidate. -/
structure GeminiCandidate where
  content : Option GeminiContent
  finish_reason : String
deriving DecidableEq, Repr

/-- A Gemini `generate_content` response: `resp.text` (already defaulted to
`""` when absent, per `getattr(resp, "text", "") or ""`) and
`resp.candidates` (empty list models an absent/empty candidate list). -/
structure GeminiResp where
  text : String
  candidates : List GeminiCandidate
deriving DecidableEq, Repr

/-- Lines 52–58: the non-empty part texts contributed by one candidate;
nothing when `content` is `None` or has no parts. -/
def candidateParts (c : GeminiCandidate) : List String :=
  match c.content with
  | none => []
  | some content =>
    if content.parts.isEmpty then []
    else (content.parts.map (fun p => p.text)).filter (fun t => t != "")

/-- Lines 50–59: `"".join(parts)` over all candidates. -/
def stitchCandidates (cs : List GeminiCandidate) : String :=
  String.join (cs.flatMap candidateParts)

/-- Lines 49–60: the effective response text — `resp.text`, falling back to
stitched candidate parts when empty, then stripped. -/
def geminiRespText (resp : GeminiResp) : String :=
  let text := resp.text
  let text := if text = "" && !resp.candidates.isEmpty then
      stitchCandidates resp.candidates else text
  pyStrip text

/-- `finish_reason` of `resp.candidates[0]` (only read when non-empty). -/
def finishReason0 (resp : GeminiResp) : String :=
  match resp.candidates with
  | [] => ""
  | c :: _ => c.finish_reason

/-- The result dictionary built by `call_gemini_safe`. -/
structure GeminiCallResult where
  response_text : String
  error : String
deriving DecidableEq, Repr

/-- Lines 60–64: turn a successfully returned Gemini response into the
result dictionary (empty text with candidates ⇒ `[EMPTY_OR_BLOCKED …]`
sentinel; empty text without candidates ⇒ `[EMPTY]`). -/
def processGeminiResp (resp : GeminiResp) : GeminiCallResult :=
  let text := geminiRespText resp
  if text = "" && !resp.candidates.isEmpty then
    { response_text := "[EMPTY_OR_BLOCKED finish_reason=" ++ finishReason0 resp ++ "]"
      error := "" }
  else
    { response_text := if text = "" then "[EMPTY]" else text, error := "" }

/-- Outcome of one `model.generate_content` invocation: a response object,
or a raised exception. -/
inductive GeminiAttempt where
  | ok (resp : GeminiResp)
  | exn (e : PyExn)
deriving DecidableEq, Repr

/-- `MAX_RETRIES` of the Gemini script. -/
def MAX_RETRIES : Nat := 6

/-- The retry loop of `call_gemini_safe` (lines 44–78).  `adapter i` is the
outcome of the `(i+1)`-th provider invocation; `fuel` is the number of loop
iterations remaining.  Returns the result dictionary together with the
number of adapter invocations performed.  Sleeping (backoff) has no
observable effect on the result and is not modelled. -/
def geminiGo (adapter : Nat → GeminiAttempt) : Nat → Nat → GeminiCallResult × Nat
  | _, 0 => ({ response_text := "ERROR: too many retries due to rate limits", error := "" }, 0)
  | i, fuel + 1 =>
    match adapter i with
    | .ok resp => (processGeminiResp resp, 1)
    | .exn e =>
      if isRateLimitedMsg e.msg then
        let r := geminiGo adapter (i + 1) fuel
        (r.1, r.2 + 1)
      else if isSafetyMsg e.msg then
        ({ response_text := "(blocked)", error := "" }, 1)
      else
        ({ response_text := "[ERROR]", error := exnStr e }, 1)

/-- `call_gemini_safe`, with its invocation count. -/
def callGeminiSafe (adapter : Nat → GeminiAttempt) : GeminiCallResult × Nat :=
  geminiGo adapter 0 MAX_RETRIES

/-! ## OpenAI provider: `call_openai_chat_with_retries` (lines 68–106) -/

/-- The `usage` object of a chat completion (field values as the strings
that end up in the result dictionary). -/
structure OpenAIUsage where
  prompt_tokens : String
  completion_tokens : String
  total_tokens : String
deriving DecidableEq, Repr

/-- A chat completion response: `r.choices[0].message.content` (possibly
`None`) and `r.usage` (possibly `None`). -/
structure ChatResp where
  content : Option String
  usage : Option OpenAIUsage
deriving DecidableEq, Repr

/-- The result dictionary built by `call_openai_chat_with_retries`. -/
structure OpenAICallResult where
  response_text : String
  prompt_tokens : String
  completion_tokens : String
  total_tokens : String
  error : String
deriving DecidableEq, Repr

/-- Lines 83–92: turn a successful chat completion into the result
dictionary (`[EMPTY]` sentinel when the stripped content is empty; token
fields default to `""` when `usage` is absent). -/
def processChatResp (r : ChatResp) : OpenAICallResult :=
  let text := pyStrip (r.content.getD "")
  { response_text := if text = "" then "[EMPTY]" else text
    prompt_tokens := match r.usage with | none => "" | some u => u.prompt_tokens
    completion_tokens := match r.usage with | none => "" | some u => u.completion_tokens
    total_tokens := match r.usage with | none => "" | some u => u.total_tokens
    error := "" }

/-- Outcome of one `client.chat.completions.create` invocation. -/
inductive OpenAIAttempt where
  | ok (resp : ChatResp)
  | exn (e : PyExn)
deriving DecidableEq, Repr

/-- `RETRIES` of the OpenAI script. -/
def RETRIES : Nat := 3

/-- The terminal "give up" dictionary of lines 100–106. -/
def openaiGiveUp (lastErr : String) : OpenAICallResult :=
  { response_text := "[ERROR]"
    prompt_tokens := ""
    completion_tokens := ""
    total_tokens := ""
    error := lastErr }

/-- The retry loop of `call_openai_chat_with_retries` (lines 72–106).
Both `except` clauses (the SDK exception tuple and bare `Exception`)
behave identically: record `last_err`, sleep, retry — so a single `exn`
case models them.  Returns the result dictionary and the number of
adapter invocations performed. -/
def openaiGo (adapter : Nat → OpenAIAttempt) : Nat → Nat → String → OpenAICallResult × Nat
  | _, 0, lastErr => (openaiGiveUp lastErr, 0)
  | i, fuel + 1, _ =>
    match adapter i with
    | .ok r => (processChatResp r, 1)
    | .exn e =>
      let r := openaiGo adapter (i + 1) fuel (exnStr e)
      (r.1, r.2 + 1)

/-- `call_openai_chat_with_retries`, with its invocation count. -/
def callOpenaiChatWithRetries (adapter : Nat → OpenAIAttempt) : OpenAICallResult × Nat :=
  openaiGo adapter 0 RETRIES ""

/-! ## Input rows and prompt extraction -/

/-- One CSV data row as a dictionary: each column either present with a
string value or absent (`row.get(k, "")` yields `""` when absent).  Only
the columns the scripts read are modelled. -/
structure InputRow where
  name : Option String := none
  category : Option String := none
  norwegian_title : Option String := none
  norwegian_url : Option String := none
  prompt_1 : Option String := none
  prompt_2 : Option String := none
  prompt_3 : Option String := none
deriving DecidableEq, Repr

/-- `[row.get("prompt_1",""), row.get("prompt_2",""), row.get("prompt_3","")]`. -/
def promptCols (row : InputRow) : List String :=
  [row.prompt_1.getD "", row.prompt_2.getD "", row.prompt_3.getD ""]

/-- `ensure_prompts`: `[p.strip() for p in ps if p and p.strip()]`. -/
def ensurePrompts (row : InputRow) : List String :=
  ((promptCols row).filter (fun p => p != "" && pyStrip p != "")).map pyStrip

/-! ## Row selection -/

/-- The `--rows {first|all}` flag. -/
inductive RowsMode where
  | first
  | all
deriving DecidableEq, Repr

/-- Row selection of both main functions:
`[(2, rows_in[0])] if rows == "first" else [(i+2, r) for i, r in enumerate(rows_in)]`.
The `first` arm indexes `rows_in[0]`, which `main` reaches only after the
non-emptiness check (`sys.exit(3)` otherwise); on the unreachable empty
input it is modelled as `[]`. -/
def selectRows : RowsMode → List InputRow → List (Nat × InputRow)
  | .first, [] => []
  | .first, r :: _ => [(2, r)]
  | .all, rows => rows.enum.map (fun q => (q.1 + 2, q.2))

/-! ## Startup checks and exit codes -/

/-- Python truthiness of `os.getenv(...)` / `os.environ.get(...)`:
`None` (unset) and `""` are falsy. -/
def pyTruthy (s : Option String) : Bool :=
  match s with
  | none => false
  | some v => v != ""

/-- The fatal startup checks of the Gemini `main` in order: `require_key()`
does `raise SystemExit("Missing GOOGLE_API_KEY environment variable.")` —
in Python a `SystemExit` whose argument is a string (not an `int`)
terminates the process with exit status **1**, printing the message to
stderr — and the empty-input check does `sys.exit(3)`.  `some c` is the
process exit code, `none` means startup succeeds. -/
def geminiStartupExitCode (googleApiKey : Option String) (rowsIn : List InputRow) : Option Nat :=
  if !pyTruthy googleApiKey then some 1
  else if rowsIn.isEmpty then some 3
  else none

/-- The fatal startup checks of the OpenAI `main` in order: missing
`OPENAI_API_KEY` does `sys.exit(2)`, an empty input does `sys.exit(3)`. -/
def openaiStartupExitCode (openaiApiKey : Option String) (rowsIn : List InputRow) : Option Nat :=
  if !pyTruthy openaiApiKey then some 2
  else if rowsIn.isEmpty then some 3
  else none

/-! ## Result records and the main accumulation loops

The driving loops are embedded with two oracles for the effects whose
values the loop merely copies into records: `clock n` is the string
`utc_now_iso()` returns at the `(n+1)`-th call (`n` counts records
appended so far, globally), and `caller n p` is the dictionary
`call_gemini_safe(p, model)` (resp. the OpenAI wrapper) returns for prompt
`p` at that same global call index. -/

/-- One output row of the Gemini script (`out_rows.append({...})`,
lines 136–149). -/
structure ResultRecord where
  timestamp_utc : String
  provider : String
  model : String
  row_index : String
  name : String
  category : String
  norwegian_title : String
  norwegian_url : String
  prompt_id : String
  prompt_text : String
  response_text : String
  error : String
deriving DecidableEq, Repr

/-- The record the Gemini `main` appends for prompt `p`, the `j`-th
(1-based) entry of its row's prompt batch, at global call index `n`. -/
def mkGeminiRecord (modelArg : String) (clock : Nat → String)
    (caller : Nat → String → GeminiCallResult)
    (vi : Nat) (row : InputRow) (n j : Nat) (p : String) : ResultRecord :=
  let res := caller n p
  { timestamp_utc := clock n
    provider := "gemini"
    model := modelArg
    row_index := toString vi
    name := row.name.getD ""
    category := row.category.getD ""
    norwegian_title := row.norwegian_title.getD ""
    norwegian_url := row.norwegian_url.getD ""
    prompt_id := "p" ++ toString j
    prompt_text := p
    response_text := res.response_text
    error := res.error }

/-- The inner loop `for j, p in enumerate(prompts, start=1)` of the Gemini
`main`: appends one record per prompt to the accumulator `acc`
(`out_rows`), threading the global call counter.  Returns the grown
accumulator and the next counter value. -/
def geminiPromptLoop (modelArg : String) (clock : Nat → String)
    (caller : Nat → String → GeminiCallResult) (vi : Nat) (row : InputRow) :
    List ResultRecord → List String → Nat → Nat → List ResultRecord × Nat
  | acc, [], n, _ => (acc, n)
  | acc, p :: rest, n, j =>
    geminiPromptLoop modelArg clock caller vi row
      (acc ++ [mkGeminiRecord modelArg clock caller vi row n j p]) rest (n + 1) (j + 1)

/-- The outer loop `for (visual_idx, row) in selected` of the Gemini
`main`: a row whose prompt batch is empty is skipped (`continue`). -/
def geminiRowLoop (modelArg : String) (clock : Nat → String)
    (caller : Nat → String → GeminiCallResult) :
    List ResultRecord → List (Nat × InputRow) → Nat → List ResultRecord
  | acc, [], _ => acc
  | acc, (vi, row) :: rest, n =>
    let prompts := ensurePrompts row
    if prompts.isEmpty then geminiRowLoop modelArg clock caller acc rest n
    else
      let r := geminiPromptLoop modelArg clock caller vi row acc prompts n 1
      geminiRowLoop modelArg clock caller r.1 rest r.2

/-- The full accumulation of the Gemini `main` over the selected rows. -/
def geminiMain (modelArg : String) (clock : Nat → String)
    (caller : Nat → String → GeminiCallResult)
    (selected : List (Nat × InputRow)) : List ResultRecord :=
  geminiRowLoop modelArg clock caller [] selected 0

/-- The Gemini script end to end: startup checks, row selection,
accumulation.  `Except.error c` models `sys.exit(c)`/`SystemExit` firing
before `write_results_csv` runs — no output file is produced on that
path; `Except.ok` carries the records that are then written. -/
def geminiRun (googleApiKey : Option String) (modelArg : String)
    (clock : Nat → String) (caller : Nat → String → GeminiCallResult)
    (mode : RowsMode) (rowsIn : List InputRow) : Except Nat (List ResultRecord) :=
  match geminiStartupExitCode googleApiKey rowsIn with
  | some c => .error c
  | none => .ok (geminiMain modelArg clock caller (selectRows mode rowsIn))

/-- One output row of the OpenAI script (`out_rows.append({...})`,
lines 162–179). -/
structure OpenAIResultRecord where
  timestamp_utc : String
  provider : String
  engine : String
  model : String
  row_index : String
  name : String
  category : String
  norwegian_title : String
  norwegian_url : String
  prompt_id : String
  prompt_text : String
  response_text : String
  prompt_tokens : String
  completion_tokens : String
  total_tokens : String
  error : String
deriving DecidableEq, Repr

/-- The record the OpenAI `main` appends for prompt `p`, the `j`-th
(1-based) entry of its row's prompt batch, at global call index `n`. -/
def mkOpenaiRecord (modelArg : String) (clock : Nat → String)
    (caller : Nat → String → OpenAICallResult)
    (vi : Nat) (row : InputRow) (n j : Nat) (p : String) : OpenAIResultRecord :=
  let res := caller n p
  { timestamp_utc := clock n
    provider := "openai"
    engine := "chat"
    model := modelArg
    row_index := toString vi
    name := row.name.getD ""
    category := row.category.getD ""
    norwegian_title := row.norwegian_title.getD ""
    norwegian_url := row.norwegian_url.getD ""
    prompt_id := "p" ++ toString j
    prompt_text := p
    response_text := res.response_text
    prompt_tokens := res.prompt_tokens
    completion_tokens := res.completion_tokens
    total_tokens := res.total_tokens
    error := res.error }

/-- The inner prompt loop of the OpenAI `main`. -/
def openaiPromptLoop (modelArg : String) (clock : Nat → String)
    (caller : Nat → String → OpenAICallResult) (vi : Nat) (row : InputRow) :
    List OpenAIResultRecord → List String → Nat → Nat → List OpenAIResultRecord × Nat
  | acc, [], n, _ => (acc, n)
  | acc, p :: rest, n, j =>
    openaiPromptLoop modelArg clock caller vi row
      (acc ++ [mkOpenaiRecord modelArg clock caller vi row n j p]) rest (n + 1) (j + 1)

/-- The outer row loop of the OpenAI `main` (rows with an empty prompt
batch are skipped with a notice). -/
def openaiRowLoop (modelArg : String) (clock : Nat → String)
    (caller : Nat → String → OpenAICallResult) :
    List OpenAIResultRecord → List (Nat × InputRow) → Nat → List OpenAIResultRecord
  | acc, [], _ => acc
  | acc, (vi, row) :: rest, n =>
    let prompts := ensurePrompts row
    if prompts.isEmpty then openaiRowLoop modelArg clock caller acc rest n
    else
      let r := openaiPromptLoop modelArg clock caller vi row acc prompts n 1
      openaiRowLoop modelArg clock caller r.1 rest r.2

/-- The full accumulation of the OpenAI `main` over the selected rows. -/
def openaiMain (modelArg : String) (clock : Nat → String)
    (caller : Nat → String → OpenAICallResult)
    (selected : List (Nat × InputRow)) : List OpenAIResultRecord :=
  openaiRowLoop modelArg clock caller [] selected 0

/-- The OpenAI script end to end, as `geminiRun` for the Gemini script. -/
def openaiRun (openaiApiKey : Option String) (modelArg : String)
    (clock : Nat → String) (caller : Nat → String → OpenAICallResult)
    (mode : RowsMode) (rowsIn : List InputRow) : Except Nat (List OpenAIResultRecord) :=
  match openaiStartupExitCode openaiApiKey rowsIn with
  | some c => .error c
  | none => .ok (openaiMain modelArg clock caller (selectRows mode rowsIn))

/-! ## CSV result writer (`write_results_csv`)

`csv.DictWriter(f, delimiter=";", quoting=csv.QUOTE_ALL, quotechar='"',
escapechar='\x5c')` with the default `doublequote=True`, on a file opened
with `encoding="utf-8-sig"` (which writes a leading byte-order mark) and
`newline=""` (the writer's default `\r\n` line terminator reaches the file
unchanged).  Per the CPython `_csv` writer: with `QUOTE_ALL` every field is
quoted; a quote character in the data is doubled (`doublequote`); an
escape character in the data is preceded by the escape character. -/

/-- The fixed output column order of the Gemini script. -/
def geminiFieldnames : List String :=
  ["timestamp_utc", "provider", "model",
   "row_index", "name", "category", "norwegian_title", "norwegian_url",
   "prompt_id", "prompt_text", "response_text", "error"]

/-- The field values of one Gemini output row, in `geminiFieldnames`
order (what `DictWriter.writerow` extracts from the dictionary). -/
def geminiRecordFields (r : ResultRecord) : List String :=
  [r.timestamp_utc, r.provider, r.model,
   r.row_index, r.name, r.category, r.norwegian_title, r.norwegian_url,
   r.prompt_id, r.prompt_text, r.response_text, r.error]

/-- Writer-side treatment of one data character: quote characters are
doubled, the escape character is escaped, everything else passes through. -/
def escWriteChar (c : Char) : List Char :=
  if c = '"' then ['"', '"']
  else if c = '\\' then ['\\', '\\']
  else [c]

/-- One written field: opening quote, escaped data, closing quote
(`QUOTE_ALL`: every field quoted). -/
def encField (cs : List Char) : List Char :=
  '"' :: cs.flatMap escWriteChar ++ ['"']

/-- One written row body: fields joined with the `;` delimiter. -/
def encRow : List (List Char) → List Char
  | [] => []
  | [f] => encField f
  | f :: g :: fs => encField f ++ ';' :: encRow (g :: fs)

/-- The writer's default line terminator. -/
def CRLF : List Char := ['\r', '\n']

/-- The byte-order mark written by `encoding="utf-8-sig"` (U+FEFF). -/
def BOM : Char := Char.ofNat 0xFEFF

/-- The character content of the file `write_results_csv` produces:
byte-order mark, header row, one row per record. -/
def writeResultsCsvChars (rows : List ResultRecord) : List Char :=
  BOM :: encRow (geminiFieldnames.map String.data) ++ CRLF
    ++ rows.flatMap (fun r => encRow ((geminiRecordFields r).map String.data) ++ CRLF)

/-! ## CSV reader

`csv.reader(f, delimiter=";", quoting=csv.QUOTE_ALL)` — the re-parsing
dialect the round-trip property prescribes: semicolon delimiter, full
quoting, and otherwise the module defaults `quotechar='"'`,
`doublequote=True`, `escapechar=None`, `strict=False` — on a file opened
with `encoding="utf-8-sig"` (strips a leading byte-order mark) and
`newline=""`.  The model mirrors the CPython `_csv` reader state machine,
with one simplification: a maximal run of CR/LF characters is eaten as a
single record terminator (the writer never produces blank lines, which
the real reader would report as empty records). -/

/-- Reader states, named after the CPython `_csv` parser states. -/
inductive RState where
  | startRecord
  | startField
  | inField
  | inQuoted
  | quoteInQuoted
  | eatCRNL
deriving DecidableEq, Repr

/-- Reader accumulator: finished records, finished fields of the current
record, characters of the current field. -/
structure RAcc where
  records : List (List String)
  fields : List String
  cur : List Char
deriving DecidableEq, Repr

/-- Append one character to the current field. -/
def addChar (acc : RAcc) (c : Char) : RAcc := { acc with cur := acc.cur ++ [c] }

/-- Close the current field. -/
def saveField (acc : RAcc) : RAcc :=
  { acc with fields := acc.fields ++ [String.mk acc.cur], cur := [] }

/-- Close the current record. -/
def endRecord (acc : RAcc) : RAcc :=
  { acc with records := acc.records ++ [acc.fields], fields := [] }

/-- The `START_FIELD` transition (also reached by fall-through from
`START_RECORD` and after a record terminator). -/
def startFieldStep (acc : RAcc) (c : Char) : RState × RAcc :=
  if c = '\n' || c = '\r' then (.eatCRNL, endRecord (saveField acc))
  else if c = '"' then (.inQuoted, acc)
  else if c = ';' then (.startField, saveField acc)
  else (.inField, addChar acc c)

/-- One reader step on one character. -/
def rStep (st : RState × RAcc) (c : Char) : RState × RAcc :=
  match st with
  | (.startRecord, acc) =>
    if c = '\n' || c = '\r' then (.eatCRNL, acc)
    else startFieldStep acc c
  | (.startField, acc) => startFieldStep acc c
  | (.inField, acc) =>
    if c = '\n' || c = '\r' then (.eatCRNL, endRecord (saveField acc))
    else if c = ';' then (.startField, saveField acc)
    else (.inField, addChar acc c)
  | (.inQuoted, acc) =>
    if c = '"' then (.quoteInQuoted, acc)
    else (.inQuoted, addChar acc c)
  | (.quoteInQuoted, acc) =>
    if c = '"' then (.inQuoted, addChar acc '"')
    else if c = ';' then (.startField, saveField acc)
    else if c = '\n' || c = '\r' then (.eatCRNL, endRecord (saveField acc))
    else (.inField, addChar acc c)
  | (.eatCRNL, acc) =>
    if c = '\n' || c = '\r' then (.eatCRNL, acc)
    else startFieldStep acc c

/-- End of input: a pending field/record is flushed unless the stream
ended at a record boundary. -/
def rFinish : RState × RAcc → List (List String)
  | (.startRecord, acc) => acc.records
  | (.eatCRNL, acc) => acc.records
  | (.startField, acc) => (endRecord (saveField acc)).records
  | (.inField, acc) => (endRecord (saveField acc)).records
  | (.inQuoted, acc) => (endRecord (saveField acc)).records
  | (.quoteInQuoted, acc) => (endRecord (saveField acc)).records

/-- `utf-8-sig` decoding: strip one leading byte-order mark. -/
def stripBOM : List Char → List Char
  | [] => []
  | c :: rest => if c = BOM then rest else c :: rest

/-- Parse a whole character stream into records of field values. -/
def parseCsv (content : List Char) : List (List String) :=
  rFinish ((stripBOM content).foldl rStep (.startRecord, ⟨[], [], []⟩))

/-! ## Ordered record sequences

The specification describes the accumulated output as the records "in
strict call order (row order × prompt order)".  The following functions
state that shape directly: one record per prompt of a row, rows
concatenated in selection order, the global call counter threaded row by
row.  The accumulation loops above are proved equal to them. -/

/-- The records of one Gemini row: the `j₀+j`-th prompt produces the
record for global call `n+j`, 1-based position `j₀+j`. -/
def geminiRowRecords (modelArg : String) (clock : Nat → String)
    (caller : Nat → String → GeminiCallResult) (vi : Nat) (row : InputRow) :
    List String → Nat → Nat → List ResultRecord
  | [], _, _ => []
  | p :: rest, n, j =>
    mkGeminiRecord modelArg clock caller vi row n j p
      :: geminiRowRecords modelArg clock caller vi row rest (n + 1) (j + 1)

/-- The Gemini records of all selected rows, in row order. -/
def geminiRecordsOrdered (modelArg : String) (clock : Nat → String)
    (caller : Nat → String → GeminiCallResult) :
    List (Nat × InputRow) → Nat → List ResultRecord
  | [], _ => []
  | (vi, row) :: rest, n =>
    geminiRowRecords modelArg clock caller vi row (ensurePrompts row) n 1
      ++ geminiRecordsOrdered modelArg clock caller rest (n + (ensurePrompts row).length)

/-- The records of one OpenAI row, as `geminiRowRecords`. -/
def openaiRowRecords (modelArg : String) (clock : Nat → String)
    (caller : Nat → String → OpenAICallResult) (vi : Nat) (row : InputRow) :
    List String → Nat → Nat → List OpenAIResultRecord
  | [], _, _ => []
  | p :: rest, n, j =>
    mkOpenaiRecord modelArg clock caller vi row n j p
      :: openaiRowRecords modelArg clock caller vi row rest (n + 1) (j + 1)

/-- The OpenAI records of all selected rows, in row order. -/
def openaiRecordsOrdered (modelArg : String) (clock : Nat → String)
    (caller : Nat → String → OpenAICallResult) :
    List (Nat × InputRow) → Nat → List OpenAIResultRecord
  | [], _ => []
  | (vi, row) :: rest, n =>
    openaiRowRecords modelArg clock caller vi row (ensurePrompts row) n 1
      ++ openaiRecordsOrdered modelArg clock caller rest (n + (ensurePrompts row).length)

/-- No field of the record contains the writer's escape character. -/
def fieldsNoBackslash (r : ResultRecord) : Bool :=
  (geminiRecordFields r).all (fun f => !f.data.contains '\\')

/-! ## Concrete instances

Concrete adapters, rows and records used to instantiate the theorems
below on explicit inputs. -/

/-- A rate-limit-like Gemini exception (matches `429`, `quota`). -/
def rateExnG : PyExn := ⟨"ResourceExhausted", "429 Resource has been exhausted: check quota"⟩

/-- A rate-limit-like OpenAI exception. -/
def rateExnO : PyExn := ⟨"RateLimitError", "429 rate limit"⟩

/-- An exception matching neither rate-limit nor safety indicators. -/
def boomExn : PyExn := ⟨"ValueError", "boom"⟩

/-- A content-safety exception (matches `blocked`/`safety`, no rate indicator). -/
def safetyExn : PyExn := ⟨"BlockedPromptException", "response was BLOCKED by the safety system"⟩

/-- A Gemini adapter that is rate-limited on every invocation. -/
def alwaysRateG : Nat → GeminiAttempt := fun _ => .exn rateExnG

/-- An OpenAI adapter that is rate-limited on every invocation. -/
def alwaysRateO : Nat → OpenAIAttempt := fun _ => .exn rateExnO

/-- A Gemini adapter that always fails with an unclassified error. -/
def alwaysBoomG : Nat → GeminiAttempt := fun _ => .exn boomExn

/-- An OpenAI adapter that always fails with an unclassified error. -/
def alwaysBoomO : Nat → OpenAIAttempt := fun _ => .exn boomExn

/-- A successful Gemini response. -/
def okRespG : GeminiResp := ⟨"Et kort svar.", []⟩

/-- A successful chat completion. -/
def okRespO : ChatResp := ⟨some "Et kort svar.", some ⟨"10", "20", "30"⟩⟩

/-- A Gemini response with no text and a recorded finish reason. -/
def emptyRespG : GeminiResp := ⟨"", [⟨none, "SAFETY"⟩]⟩

/-- Gemini adapter: rate-limited twice, then a successful response. -/
def failTwiceG : Nat → GeminiAttempt := fun i => if i < 2 then .exn rateExnG else .ok okRespG

/-- OpenAI adapter: rate-limited once, then a successful response. -/
def failOnceO : Nat → OpenAIAttempt := fun i => if i < 1 then .exn rateExnO else .ok okRespO

/-- A Gemini adapter that always returns the empty/blocked response. -/
def alwaysEmptyG : Nat → GeminiAttempt := fun _ => .ok emptyRespG

/-- A Gemini adapter that always raises the safety exception. -/
def alwaysSafetyG : Nat → GeminiAttempt := fun _ => .exn safetyExn

/-- An input row with no columns present. -/
def sampleRow : InputRow := {}

/-- An input row whose first prompt column is blank and whose second and
third are non-empty. -/
def exampleRow10 : InputRow :=
  { prompt_1 := some " "
    prompt_2 := some "Hva lærer buddhismen?"
    prompt_3 := some "Hvordan praktiseres buddhismen?" }

/-- A fixed clock oracle. -/
def constClock : Nat → String := fun _ => "2025-01-01T00:00:00+00:00"

/-- A fixed Gemini call oracle. -/
def constCallerG : Nat → String → GeminiCallResult := fun _ _ => ⟨"svar", ""⟩

/-- A fixed OpenAI call oracle. -/
def constCallerO : Nat → String → OpenAICallResult := fun _ _ => ⟨"svar", "1", "2", "3", ""⟩

/-- A record whose fields contain the delimiter, the quote character and a
newline — but no backslash. -/
def recordPlain : ResultRecord :=
  ⟨"2025-01-01T00:00:00+00:00", "gemini", "m", "2", "Buddhism", "religion",
   "Buddhisme", "https://no.wikipedia.org/wiki/Buddhisme", "p1",
   "Hva; lærer \"buddhismen\"?", "Svar:\nkort.", ""⟩

/-- A record whose response text contains one backslash. -/
def recordWithBackslash : ResultRecord :=
  ⟨"t", "gemini", "m", "2", "n", "c", "nt", "nu", "p1", "q", "a\\b", ""⟩

/-! # Theorems -/

/-! ## Accumulation loops compute the ordered record sequences -/

theorem geminiPromptLoop_eq (modelArg : String) (clock : Nat → String)
    (caller : Nat → String → GeminiCallResult) (vi : Nat) (row : InputRow)
    (ps : List String) : ∀ (acc : List ResultRecord) (n j : Nat),
    geminiPromptLoop modelArg clock caller vi row acc ps n j
      = (acc ++ geminiRowRecords modelArg clock caller vi row ps n j, n + ps.length) := by
  induction ps with
  | nil => intro acc n j; simp [geminiPromptLoop, geminiRowRecords]
  | cons p rest ih =>
    intro acc n j
    simp only [geminiPromptLoop, geminiRowRecords, ih, List.append_assoc,
      List.singleton_append, List.length_cons]
    have h : n + 1 + rest.length = n + (rest.length + 1) := by omega
    rw [h]

theorem geminiRowLoop_eq (modelArg : String) (clock : Nat → String)
    (caller : Nat → String → GeminiCallResult)
    (rows : List (Nat × InputRow)) : ∀ (acc : List ResultRecord) (n : Nat),
    geminiRowLoop modelArg clock caller acc rows n
      = acc ++ geminiRecordsOrdered modelArg clock caller rows n := by
  induction rows with
  | nil => intro acc n; simp [geminiRowLoop, geminiRecordsOrdered]
  | cons hd rest ih =>
    intro acc n
    obtain ⟨vi, row⟩ := hd
    by_cases hp : (ensurePrompts row).isEmpty
    · have hnil : ensurePrompts row = [] := List.isEmpty_iff.mp hp
      simp [geminiRowLoop, geminiRecordsOrdered, hp, hnil, ih, geminiRowRecords]
    · simp [geminiRowLoop, geminiRecordsOrdered, hp, ih, geminiPromptLoop_eq,
        List.append_assoc]

theorem openaiPromptLoop_eq (modelArg : String) (clock : Nat → String)
    (caller : Nat → String → OpenAICallResult) (vi : Nat) (row : InputRow)
    (ps : List String) : ∀ (acc : List OpenAIResultRecord) (n j : Nat),
    openaiPromptLoop modelArg clock caller vi row acc ps n j
      = (acc ++ openaiRowRecords modelArg clock caller vi row ps n j, n + ps.length) := by
  induction ps with
  | nil => intro acc n j; simp [openaiPromptLoop, openaiRowRecords]
  | cons p rest ih =>
    intro acc n j
    simp only [openaiPromptLoop, openaiRowRecords, ih, List.append_assoc,
      List.singleton_append, List.length_cons]
    have h : n + 1 + rest.length = n + (rest.length + 1) := by omega
    rw [h]

theorem openaiRowLoop_eq (modelArg : String) (clock : Nat → String)
    (caller : Nat → String → OpenAICallResult)
    (rows : List (Nat × InputRow)) : ∀ (acc : List OpenAIResultRecord) (n : Nat),
    openaiRowLoop modelArg clock caller acc rows n
      = acc ++ openaiRecordsOrdered modelArg clock caller rows n := by
  induction rows with
  | nil => intro acc n; simp [openaiRowLoop, openaiRecordsOrdered]
  | cons hd rest ih =>
    intro acc n
    obtain ⟨vi, row⟩ := hd
    by_cases hp : (ensurePrompts row).isEmpty
    · have hnil : ensurePrompts row = [] := List.isEmpty_iff.mp hp
      simp [openaiRowLoop, openaiRecordsOrdered, hp, hnil, ih, openaiRowRecords]
    · simp [openaiRowLoop, openaiRecordsOrdered, hp, ih, openaiPromptLoop_eq,
        List.append_assoc]

theorem geminiRowRecords_length (modelArg : String) (clock : Nat → String)
    (caller : Nat → String → GeminiCallResult) (vi : Nat) (row : InputRow)
    (ps : List String) : ∀ (n j : Nat),
    (geminiRowRecords modelArg clock caller vi row ps n j).length = ps.length := by
  induction ps with
  | nil => intro n j; rfl
  | cons p rest ih => intro n j; simp [geminiRowRecords, ih]

theorem openaiRowRecords_length (modelArg : String) (clock : Nat → String)
    (caller : Nat → String → OpenAICallResult) (vi : Nat) (row : InputRow)
    (ps : List String) : ∀ (n j : Nat),
    (openaiRowRecords modelArg clock caller vi row ps n j).length = ps.length := by
  induction ps with
  | nil => intro n j; rfl
  | cons p rest ih => intro n j; simp [openaiRowRecords, ih]

theorem geminiRecordsOrdered_length (modelArg : String) (clock : Nat → String)
    (caller : Nat → String → GeminiCallResult)
    (rows : List (Nat × InputRow)) : ∀ (n : Nat),
    (geminiRecordsOrdered modelArg clock caller rows n).length
      = (rows.map (fun s => (ensurePrompts s.2).length)).sum := by
  induction rows with
  | nil => intro n; rfl
  | cons hd rest ih =>
    intro n
    obtain ⟨vi, row⟩ := hd
    simp [geminiRecordsOrdered, geminiRowRecords_length, ih]

theorem openaiRecordsOrdered_length (modelArg : String) (clock : Nat → String)
    (caller : Nat → String → OpenAICallResult)
    (rows : List (Nat × InputRow)) : ∀ (n : Nat),
    (openaiRecordsOrdered modelArg clock caller rows n).length
      = (rows.map (fun s => (ensurePrompts s.2).length)).sum := by
  induction rows with
  | nil => intro n; rfl
  | cons hd rest ih =>
    intro n
    obtain ⟨vi, row⟩ := hd
    simp [openaiRecordsOrdered, openaiRowRecords_length, ih]

/-- C5: over any run, both scripts accumulate exactly one `ResultRecord`
per non-empty prompt of each selected row — the total record count is the
sum over selected rows of the row's prompt-batch length (a row with no
prompts contributes zero and is skipped) — and the accumulated sequence is
exactly the ordered sequence `…RecordsOrdered` (row order, then prompt
order within a row): records are only ever appended, never overwritten or
reordered. -/
theorem C5_record_accumulation (modelArg : String) (clock : Nat → String)
    (cG : Nat → String → GeminiCallResult) (cO : Nat → String → OpenAICallResult)
    (selected : List (Nat × InputRow)) :
    geminiMain modelArg clock cG selected = geminiRecordsOrdered modelArg clock cG selected 0
    ∧ (geminiMain modelArg clock cG selected).length
        = (selected.map (fun s => (ensurePrompts s.2).length)).sum
    ∧ openaiMain modelArg clock cO selected = openaiRecordsOrdered modelArg clock cO selected 0
    ∧ (openaiMain modelArg clock cO selected).length
        = (selected.map (fun s => (ensurePrompts s.2).length)).sum := by
  refine ⟨?_, ?_, ?_, ?_⟩
  · simp [geminiMain, geminiRowLoop_eq]
  · simp [geminiMain, geminiRowLoop_eq, geminiRecordsOrdered_length]
  · simp [openaiMain, openaiRowLoop_eq]
  · simp [openaiMain, openaiRowLoop_eq, openaiRecordsOrdered_length]

/-! ## Prompt extraction -/

/-- C6: `ensure_prompts` returns exactly the prompt columns that are
non-empty after stripping, each stripped, in original column order
(`prompt_1`, `prompt_2`, `prompt_3`); missing, empty and whitespace-only
columns are dropped, so the batch has as many entries as there are
non-blank prompt columns, at most 3. -/
theorem C6_prompt_extraction (row : InputRow) :
    ensurePrompts row = ((promptCols row).filter (fun p => pyStrip p != "")).map pyStrip
    ∧ (ensurePrompts row).length
        = ((promptCols row).filter (fun p => pyStrip p != "")).length
    ∧ (ensurePrompts row).length ≤ 3 := by
  have hfilter : ∀ p ∈ promptCols row,
      (p != "" && pyStrip p != "") = (pyStrip p != "") := by
    intro p _
    by_cases h : p = ""
    · subst h; decide
    · simp [h]
  have hePr : ensurePrompts row
      = ((promptCols row).filter (fun p => pyStrip p != "")).map pyStrip := by
    unfold ensurePrompts
    rw [List.filter_congr hfilter]
  refine ⟨hePr, by rw [hePr, List.length_map], ?_⟩
  rw [hePr, List.length_map]
  calc ((promptCols row).filter (fun p => pyStrip p != "")).length
      ≤ (promptCols row).length := List.length_filter_le _ _
    _ = 3 := rfl

/-! ## Row selection -/

/-- C9: on a non-empty input, `first` mode selects exactly the first data
row with visual index 2, and `all` mode selects every row in order, the
`i`-th data row (1-based) paired with visual index `i + 1`. -/
theorem C9_row_selection (rows : List InputRow) :
    (∀ r rest, rows = r :: rest → selectRows .first rows = [(2, r)])
    ∧ (selectRows .all rows).length = rows.length
    ∧ (∀ i, 1 ≤ i → i ≤ rows.length →
        ∃ r, rows[i-1]? = some r ∧ (selectRows .all rows)[i-1]? = some (i+1, r)) := by
  refine ⟨?_, ?_, ?_⟩
  · intro r rest h; subst h; rfl
  · simp [selectRows]
  · intro i h1 h2
    have hlt : i - 1 < rows.length := by omega
    refine ⟨rows.get ⟨i - 1, hlt⟩, ?_, ?_⟩
    · simp [List.getElem?_eq_getElem hlt]
    · simp [selectRows, List.getElem?_map, List.getElem?_enum,
        List.getElem?_eq_getElem hlt]
      omega

/-- C9 witness: the selection theorem at a concrete two-row input — the
second data row (1-based index 2) carries visual index 3. -/
theorem C9_witness :
    selectRows .first [sampleRow, exampleRow10] = [(2, sampleRow)]
    ∧ (selectRows .all [sampleRow, exampleRow10]).length = 2
    ∧ ∃ r, ([sampleRow, exampleRow10] : List InputRow)[1]? = some r
        ∧ (selectRows .all [sampleRow, exampleRow10])[1]? = some (3, r) := by
  have h := C9_row_selection [sampleRow, exampleRow10]
  refine ⟨h.1 sampleRow [exampleRow10] rfl, h.2.1, ?_⟩
  have h2 := h.2.2 2 (by decide) (by decide)
  simpa using h2

/-! ## Prompt identifiers -/

theorem geminiRowRecords_map_prompt_id (modelArg : String) (clock : Nat → String)
    (caller : Nat → String → GeminiCallResult) (vi : Nat) (row : InputRow)
    (ps : List String) : ∀ (n j : Nat),
    (geminiRowRecords modelArg clock caller vi row ps n j).map (fun r => r.prompt_id)
      = (List.range' j ps.length).map (fun k => "p" ++ toString k) := by
  induction ps with
  | nil => intro n j; rfl
  | cons p rest ih =>
    intro n j
    rw [List.length_cons, List.range'_succ]
    simp [geminiRowRecords, mkGeminiRecord, ih]

theorem openaiRowRecords_map_prompt_id (modelArg : String) (clock : Nat → String)
    (caller : Nat → String → OpenAICallResult) (vi : Nat) (row : InputRow)
    (ps : List String) : ∀ (n j : Nat),
    (openaiRowRecords modelArg clock caller vi row ps n j).map (fun r => r.prompt_id)
      = (List.range' j ps.length).map (fun k => "p" ++ toString k) := by
  induction ps with
  | nil => intro n j; rfl
  | cons p rest ih =>
    intro n j
    rw [List.length_cons, List.range'_succ]
    simp [openaiRowRecords, mkOpenaiRecord, ih]

/-- C10: within a row, the `prompt_id` of the records is `"p"` followed by
the prompt's 1-based position inside the *filtered* prompt batch
(`List.range' 1 len` is `[1, …, len]`), not the original column number:
for `exampleRow10`, whose `prompt_1` is blank and whose `prompt_2` and
`prompt_3` are non-empty, the ids are `p1` and `p2`. -/
theorem C10_prompt_ids (modelArg : String) (clock : Nat → String)
    (cG : Nat → String → GeminiCallResult) (cO : Nat → String → OpenAICallResult)
    (vi : Nat) (row : InputRow) (n : Nat) :
    (geminiRowRecords modelArg clock cG vi row (ensurePrompts row) n 1).map
        (fun r => r.prompt_id)
      = (List.range' 1 (ensurePrompts row).length).map (fun k => "p" ++ toString k)
    ∧ (openaiRowRecords modelArg clock cO vi row (ensurePrompts row) n 1).map
        (fun r => r.prompt_id)
      = (List.range' 1 (ensurePrompts row).length).map (fun k => "p" ++ toString k)
    ∧ (geminiRowRecords modelArg clock cG vi exampleRow10
        (ensurePrompts exampleRow10) n 1).map (fun r => r.prompt_id) = ["p1", "p2"] := by
  refine ⟨geminiRowRecords_map_prompt_id _ _ _ _ _ _ _ _,
    openaiRowRecords_map_prompt_id _ _ _ _ _ _ _ _, ?_⟩
  rw [geminiRowRecords_map_prompt_id]
  have h : ensurePrompts exampleRow10
      = ["Hva lærer buddhismen?", "Hvordan praktiseres buddhismen?"] := by decide
  rw [h]
  decide

/-! ## Startup failures and exit codes -/

/-- C7 (amended): with the credential environment variable absent (or
empty), the Gemini script terminates with exit code **1** — `require_key`
raises `SystemExit` with a string message, which Python maps to status 1 —
while the OpenAI script calls `sys.exit(2)` and terminates with exit
code 2; with the credential present and zero data rows, both scripts
terminate with exit code 3.  In all these cases the run ends on the
`Except.error` path, before any output records exist — no output file is
produced. -/
theorem C7_exit_codes (key : Option String) (rows : List InputRow) (modelArg : String)
    (clock : Nat → String) (cG : Nat → String → GeminiCallResult)
    (cO : Nat → String → OpenAICallResult) (mode : RowsMode) :
    (pyTruthy key = false →
      geminiRun key modelArg clock cG mode rows = .error 1
      ∧ openaiRun key modelArg clock cO mode rows = .error 2)
    ∧ (pyTruthy key = true → rows = [] →
      geminiRun key modelArg clock cG mode rows = .error 3
      ∧ openaiRun key modelArg clock cO mode rows = .error 3) := by
  constructor
  · intro hk
    constructor
    · simp [geminiRun, geminiStartupExitCode, hk]
    · simp [openaiRun, openaiStartupExitCode, hk]
  · intro hk hrows
    subst hrows
    constructor
    · simp [geminiRun, geminiStartupExitCode, hk]
    · simp [openaiRun, openaiStartupExitCode, hk]

/-- C7 counterexample: with `GOOGLE_API_KEY` absent (and a non-empty
input), the Gemini script terminates with exit code 1, not 2 as claimed. -/
theorem C7_counterexample :
    geminiRun none "m" constClock constCallerG .first [sampleRow] = .error 1
    ∧ geminiRun none "m" constClock constCallerG .first [sampleRow]
        ≠ (.error 2 : Except Nat (List ResultRecord)) := by
  constructor
  · rfl
  · intro h
    simp [geminiRun, geminiStartupExitCode, pyTruthy] at h

/-- C7 witness: the amended theorem applied at concrete inputs — missing
key (Gemini exits 1, OpenAI exits 2) and empty input with key present
(both exit 3). -/
theorem C7_witness :
    (geminiRun none "m" constClock constCallerG .first [sampleRow] = .error 1
      ∧ openaiRun none "m" constClock constCallerO .first [sampleRow] = .error 2)
    ∧ (geminiRun (some "k") "m" constClock constCallerG .first [] = .error 3
      ∧ openaiRun (some "k") "m" constClock constCallerO .first [] = .error 3) :=
  ⟨(C7_exit_codes none [sampleRow] "m" constClock constCallerG constCallerO .first).1
      (by decide),
   (C7_exit_codes (some "k") [] "m" constClock constCallerG constCallerO .first).2
      (by decide) rfl⟩

/-! ## Retry controller lemmas -/

theorem exnStr_ne_empty (e : PyExn) : exnStr e ≠ "" := by
  intro h
  have h2 := congrArg String.length h
  unfold exnStr at h2
  rw [String.length_append, String.length_append] at h2
  have hc : (": ").length = 2 := rfl
  have hz : ("" : String).length = 0 := rfl
  omega

/-- A run of `k` rate-limited failures just consumes `k` attempts and `k`
units of fuel. -/
theorem geminiGo_shift (a : Nat → GeminiAttempt) :
    ∀ (k i fuel : Nat), k ≤ fuel →
    (∀ j, j < k → ∃ e, a (i + j) = .exn e ∧ isRateLimitedMsg e.msg = true) →
    geminiGo a i fuel
      = ((geminiGo a (i + k) (fuel - k)).1, (geminiGo a (i + k) (fuel - k)).2 + k) := by
  intro k
  induction k with
  | zero => intro i fuel _ _; simp
  | succ k ih =>
    intro i fuel hk h
    obtain ⟨f, rfl⟩ : ∃ f, fuel = f + 1 := ⟨fuel - 1, by omega⟩
    obtain ⟨e, he, hrl⟩ := h 0 (Nat.succ_pos k)
    rw [Nat.add_zero] at he
    have step : geminiGo a i (f + 1)
        = ((geminiGo a (i + 1) f).1, (geminiGo a (i + 1) f).2 + 1) := by
      simp [geminiGo, he, hrl]
    have htail : ∀ j, j < k → ∃ e2, a (i + 1 + j) = .exn e2 ∧ isRateLimitedMsg e2.msg = true := by
      intro j hj
      have := h (j + 1) (by omega)
      rwa [show i + (j + 1) = i + 1 + j by omega] at this
    rw [step, ih (i + 1) f (by omega) htail]
    rw [show i + 1 + k = i + (k + 1) by omega, show f - k = f + 1 - (k + 1) by omega]
    rw [Nat.add_assoc]

/-- Exhaustion: a sequence of nothing but rate-limited failures consumes
all fuel and yields the exhaustion sentinel with an empty error. -/
theorem geminiGo_exhaust (a : Nat → GeminiAttempt) (fuel i : Nat)
    (h : ∀ j, j < fuel → ∃ e, a (i + j) = .exn e ∧ isRateLimitedMsg e.msg = true) :
    geminiGo a i fuel
      = ({ response_text := "ERROR: too many retries due to rate limits", error := "" },
         fuel) := by
  have hs := geminiGo_shift a fuel i fuel (Nat.le_refl fuel) h
  simpa [geminiGo] using hs

/-- The OpenAI loop retries through any `k` consecutive failures. -/
theorem openaiGo_shift (a : Nat → OpenAIAttempt) :
    ∀ (k i fuel : Nat) (lastErr : String), k ≤ fuel →
    (∀ j, j < k → ∃ e, a (i + j) = .exn e) →
    ∃ le2, openaiGo a i fuel lastErr
      = ((openaiGo a (i + k) (fuel - k) le2).1, (openaiGo a (i + k) (fuel - k) le2).2 + k) := by
  intro k
  induction k with
  | zero => intro i fuel lastErr _ _; exact ⟨lastErr, by simp⟩
  | succ k ih =>
    intro i fuel lastErr hk h
    obtain ⟨f, rfl⟩ : ∃ f, fuel = f + 1 := ⟨fuel - 1, by omega⟩
    obtain ⟨e, he⟩ := h 0 (Nat.succ_pos k)
    rw [Nat.add_zero] at he
    have step : openaiGo a i (f + 1) lastErr
        = ((openaiGo a (i + 1) f (exnStr e)).1, (openaiGo a (i + 1) f (exnStr e)).2 + 1) := by
      simp [openaiGo, he]
    have htail : ∀ j, j < k → ∃ e2, a (i + 1 + j) = .exn e2 := by
      intro j hj
      have := h (j + 1) (by omega)
      rwa [show i + (j + 1) = i + 1 + j by omega] at this
    obtain ⟨le2, hrec⟩ := ih (i + 1) f (exnStr e) (by omega) htail
    refine ⟨le2, ?_⟩
    rw [step, hrec]
    rw [show i + 1 + k = i + (k + 1) by omega, show f - k = f + 1 - (k + 1) by omega]
    rw [Nat.add_assoc]

/-- If every attempt fails, the OpenAI loop consumes all fuel and gives up
with the *last* failure's message as the recorded error. -/
theorem openaiGo_allFail (a : Nat → OpenAIAttempt) :
    ∀ (fuel i : Nat) (lastErr : String), 1 ≤ fuel →
    (∀ j, j < fuel → ∃ e, a (i + j) = .exn e) →
    ∃ eL, a (i + (fuel - 1)) = .exn eL
      ∧ openaiGo a i fuel lastErr = (openaiGiveUp (exnStr eL), fuel) := by
  intro fuel
  induction fuel with
  | zero => intro i lastErr h1 _; omega
  | succ f ih =>
    intro i lastErr _ h
    obtain ⟨e, he⟩ := h 0 (Nat.succ_pos f)
    rw [Nat.add_zero] at he
    by_cases hf : f = 0
    · subst hf
      exact ⟨e, by simpa using he, by simp [openaiGo, he]⟩
    · have htail : ∀ j, j < f → ∃ e2, a (i + 1 + j) = .exn e2 := by
        intro j hj
        have := h (j + 1) (by omega)
        rwa [show i + (j + 1) = i + 1 + j by omega] at this
      obtain ⟨eL, heL, hres⟩ := ih (i + 1) (exnStr e) (by omega) htail
      refine ⟨eL, ?_, ?_⟩
      · rwa [show i + (f + 1 - 1) = i + 1 + (f - 1) by omega]
      · simp [openaiGo, he, hres]

/-! ## Retry exhaustion (C1) -/

/-- C1 (amended): with an adapter that fails with a rate-limit-like error
on every attempt, the **Gemini** controller returns — does not raise —
after exactly `MAX_RETRIES = 6` invocations a `CallResult` whose
`response_text` is the non-empty exhaustion sentinel and whose `error` is
empty; the **OpenAI** controller returns after exactly `RETRIES = 3`
invocations a `CallResult` whose `response_text` is the `[ERROR]` sentinel
and whose `error` is the last attempt's failure message — non-empty, not
empty as the original claim states for every provider. -/
theorem C1_retry_exhaustion (aG : Nat → GeminiAttempt) (aO : Nat → OpenAIAttempt)
    (hG : ∀ i, i < MAX_RETRIES → ∃ e, aG i = .exn e ∧ isRateLimitedMsg e.msg = true)
    (hO : ∀ i, i < RETRIES → ∃ e, aO i = .exn e) :
    callGeminiSafe aG
      = ({ response_text := "ERROR: too many retries due to rate limits", error := "" },
         MAX_RETRIES)
    ∧ ∃ eL, aO (RETRIES - 1) = .exn eL
        ∧ callOpenaiChatWithRetries aO = (openaiGiveUp (exnStr eL), RETRIES)
        ∧ exnStr eL ≠ "" := by
  constructor
  · exact geminiGo_exhaust aG MAX_RETRIES 0 (by simpa using hG)
  · obtain ⟨eL, heL, hres⟩ := openaiGo_allFail aO RETRIES 0 "" (by decide) (by simpa using hO)
    exact ⟨eL, by simpa using heL, hres, exnStr_ne_empty eL⟩

/-- C1 counterexample: with the OpenAI adapter rate-limited on every
attempt, the terminal result's `error` field is *not* empty — it carries
the last failure message — contradicting the claim that the `error` field
is empty for every provider. -/
theorem C1_counterexample :
    isRateLimitedMsg rateExnO.msg = true
    ∧ callOpenaiChatWithRetries alwaysRateO
        = (openaiGiveUp "RateLimitError: 429 rate limit", 3)
    ∧ (callOpenaiChatWithRetries alwaysRateO).1.error ≠ "" := by decide

/-- C1 witness: the amended theorem at concrete always-rate-limited
adapters. -/
theorem C1_witness :
    callGeminiSafe alwaysRateG
      = ({ response_text := "ERROR: too many retries due to rate limits", error := "" },
         MAX_RETRIES)
    ∧ ∃ eL, alwaysRateO (RETRIES - 1) = .exn eL
        ∧ callOpenaiChatWithRetries alwaysRateO = (openaiGiveUp (exnStr eL), RETRIES)
        ∧ exnStr eL ≠ "" :=
  C1_retry_exhaustion alwaysRateG alwaysRateO
    (fun _ _ => ⟨rateExnG, rfl, by decide⟩)
    (fun _ _ => ⟨rateExnO, rfl⟩)

/-! ## Success after N attempts (C2) -/

/-- C2: if the adapter fails with rate-limit-like errors on exactly the
first `N − 1` invocations and succeeds on the `N`-th (`1 ≤ N ≤` the
provider's maximum attempt count), each controller returns the successful
result after exactly `N` adapter invocations, no earlier and no later. -/
theorem C2_success_at_nth_attempt (aG : Nat → GeminiAttempt) (aO : Nat → OpenAIAttempt)
    (NG NO : Nat) (respG : GeminiResp) (respO : ChatResp)
    (hNG1 : 1 ≤ NG) (hNG : NG ≤ MAX_RETRIES)
    (hNO1 : 1 ≤ NO) (hNO : NO ≤ RETRIES)
    (hfailG : ∀ j, j < NG - 1 → ∃ e, aG j = .exn e ∧ isRateLimitedMsg e.msg = true)
    (hokG : aG (NG - 1) = .ok respG)
    (hfailO : ∀ j, j < NO - 1 → ∃ e, aO j = .exn e)
    (hokO : aO (NO - 1) = .ok respO) :
    callGeminiSafe aG = (processGeminiResp respG, NG)
    ∧ callOpenaiChatWithRetries aO = (processChatResp respO, NO) := by
  constructor
  · have hs := geminiGo_shift aG (NG - 1) 0 MAX_RETRIES (by omega) (by simpa using hfailG)
    have hfuel : MAX_RETRIES - (NG - 1) = (MAX_RETRIES - NG) + 1 := by
      unfold MAX_RETRIES at hNG ⊢; omega
    rw [Nat.zero_add] at hs
    rw [hfuel] at hs
    have hstep : geminiGo aG (NG - 1) ((MAX_RETRIES - NG) + 1) = (processGeminiResp respG, 1) := by
      simp [geminiGo, hokG]
    rw [callGeminiSafe, hs, hstep]
    simp only []
    rw [show 1 + (NG - 1) = NG by omega]
  · obtain ⟨le2, hs⟩ := openaiGo_shift aO (NO - 1) 0 RETRIES "" (by omega) (by simpa using hfailO)
    have hfuel : RETRIES - (NO - 1) = (RETRIES - NO) + 1 := by
      unfold RETRIES at hNO ⊢; omega
    rw [Nat.zero_add] at hs
    rw [hfuel] at hs
    have hstep : openaiGo aO (NO - 1) ((RETRIES - NO) + 1) le2 = (processChatResp respO, 1) := by
      simp [openaiGo, hokO]
    rw [callOpenaiChatWithRetries, hs, hstep]
    simp only []
    rw [show 1 + (NO - 1) = NO by omega]

/-- C2 witness: the theorem at a Gemini adapter that is rate-limited twice
then succeeds (`N = 3 ≤ 6`) and an OpenAI adapter that is rate-limited
once then succeeds (`N = 2 ≤ 3`). -/
theorem C2_witness :
    callGeminiSafe failTwiceG = (processGeminiResp okRespG, 3)
    ∧ callOpenaiChatWithRetries failOnceO = (processChatResp okRespO, 2) :=
  C2_success_at_nth_attempt failTwiceG failOnceO 3 2 okRespG okRespO
    (by decide) (by decide) (by decide) (by decide)
    (fun j hj => ⟨rateExnG, by simp [failTwiceG]; omega, by decide⟩)
    (by decide)
    (fun j hj => ⟨rateExnO, by simp [failOnceO]; omega⟩)
    (by decide)

/-! ## Unclassified failures (C3) -/

/-- C3 (amended): the **Gemini** controller, on an adapter failure whose
message matches neither a rate-limit/quota/busy indicator nor a
content-safety indicator, immediately — after that single invocation, at
any point of the retry sequence — returns a terminal result with the
`[ERROR]` sentinel and a populated (non-empty) `error` field, with no
further attempts.  The **OpenAI** controller has no such classification:
it retries *every* failure, and with failures throughout it performs all
`RETRIES = 3` invocations before recording the last failure message. -/
theorem C3_unknown_failure (aG : Nat → GeminiAttempt) (aO : Nat → OpenAIAttempt)
    (i fuel : Nat) (e : PyExn)
    (hG : aG i = .exn e) (hrl : isRateLimitedMsg e.msg = false)
    (hsf : isSafetyMsg e.msg = false)
    (hO : ∀ j, j < RETRIES → ∃ e2, aO j = .exn e2) :
    geminiGo aG i (fuel + 1) = ({ response_text := "[ERROR]", error := exnStr e }, 1)
    ∧ exnStr e ≠ ""
    ∧ ∃ eL, aO (RETRIES - 1) = .exn eL
        ∧ callOpenaiChatWithRetries aO = (openaiGiveUp (exnStr eL), RETRIES) := by
  refine ⟨by simp [geminiGo, hG, hrl, hsf], exnStr_ne_empty e, ?_⟩
  obtain ⟨eL, heL, hres⟩ := openaiGo_allFail aO RETRIES 0 "" (by decide) (by simpa using hO)
  exact ⟨eL, by simpa using heL, hres⟩

/-- C3 counterexample: on an adapter failure matching neither indicator
(`ValueError: boom`), the OpenAI controller performs all 3 invocations —
it retries, contradicting the claim that no further attempts are made. -/
theorem C3_counterexample :
    isRateLimitedMsg boomExn.msg = false
    ∧ isSafetyMsg boomExn.msg = false
    ∧ (callOpenaiChatWithRetries alwaysBoomO).2 = 3
    ∧ (callOpenaiChatWithRetries alwaysBoomO).2 ≠ 1 := by decide

/-- C3 witness: the amended theorem at concrete always-`boom` adapters. -/
theorem C3_witness :
    geminiGo alwaysBoomG 0 (5 + 1) = ({ response_text := "[ERROR]", error := exnStr boomExn }, 1)
    ∧ exnStr boomExn ≠ ""
    ∧ ∃ eL, alwaysBoomO (RETRIES - 1) = .exn eL
        ∧ callOpenaiChatWithRetries alwaysBoomO = (openaiGiveUp (exnStr eL), RETRIES) :=
  C3_unknown_failure alwaysBoomG alwaysBoomO 0 5 boomExn rfl (by decide) (by decide)
    (fun _ _ => ⟨boomExn, rfl⟩)

/-! ## Content-safety blocks and empty responses (C4) -/

/-- C4: a Gemini response with no effective text yields a `CallResult`
with empty `error` and a non-empty human-readable sentinel
(`[EMPTY_OR_BLOCKED finish_reason=…]` or `[EMPTY]`) after that single
invocation, and an exception classified as a content-safety block (matches
a safety indicator, not a rate-limit one) yields `(blocked)` with empty
`error` after that single invocation — neither outcome is retried and
neither propagates an exception. -/
theorem C4_blocked_or_empty (aR aE : Nat → GeminiAttempt) (i1 i2 f1 f2 : Nat)
    (resp : GeminiResp) (e : PyExn)
    (hok : aR i1 = .ok resp) (hempty : geminiRespText resp = "")
    (hexn : aE i2 = .exn e) (hrl : isRateLimitedMsg e.msg = false)
    (hsf : isSafetyMsg e.msg = true) :
    (processGeminiResp resp).error = ""
    ∧ (processGeminiResp resp).response_text ≠ ""
    ∧ geminiGo aR i1 (f1 + 1) = (processGeminiResp resp, 1)
    ∧ geminiGo aE i2 (f2 + 1) = ({ response_text := "(blocked)", error := "" }, 1) := by
  refine ⟨?_, ?_, by simp [geminiGo, hok], by simp [geminiGo, hexn, hrl, hsf]⟩
  · by_cases hc : resp.candidates.isEmpty
    · simp [processGeminiResp, hempty, hc]
    · simp [processGeminiResp, hempty, hc]
  · by_cases hc : resp.candidates.isEmpty
    · simp [processGeminiResp, hempty, hc]
    · have hne : processGeminiResp resp
          = { response_text := "[EMPTY_OR_BLOCKED finish_reason=" ++ finishReason0 resp ++ "]",
              error := "" } := by
        simp [processGeminiResp, hempty, hc]
      rw [hne]
      show "[EMPTY_OR_BLOCKED finish_reason=" ++ finishReason0 resp ++ "]" ≠ ""
      intro h
      have h2 := congrArg String.data h
      rw [String.data_append, String.data_append] at h2
      rw [show ("" : String).data = [] from rfl] at h2
      have h3 := List.append_eq_nil.mp h2
      have h4 := List.append_eq_nil.mp h3.1
      exact absurd h4.1 (by decide)

/-- C4 witness: the theorem at a concrete empty/blocked response (empty
text, one candidate with finish reason `SAFETY`) and a concrete
safety-block exception. -/
theorem C4_witness :
    (processGeminiResp emptyRespG).error = ""
    ∧ (processGeminiResp emptyRespG).response_text ≠ ""
    ∧ geminiGo alwaysEmptyG 0 (5 + 1) = (processGeminiResp emptyRespG, 1)
    ∧ geminiGo alwaysSafetyG 0 (5 + 1) = ({ response_text := "(blocked)", error := "" }, 1) :=
  C4_blocked_or_empty alwaysEmptyG alwaysSafetyG 0 0 5 5 emptyRespG safetyExn
    rfl (by decide) rfl (by decide) (by decide)

/-! ## CSV round trip (C8) -/

theorem mk_data (s : String) : String.mk s.data = s := by cases s; rfl

theorem rStep_startRecord_quote (acc : RAcc) : rStep (.startRecord, acc) '"' = (.inQuoted, acc) := rfl

theorem rStep_startField_quote (acc : RAcc) : rStep (.startField, acc) '"' = (.inQuoted, acc) := rfl

theorem rStep_eatCRNL_quote (acc : RAcc) : rStep (.eatCRNL, acc) '"' = (.inQuoted, acc) := rfl

theorem rStep_quoteInQuoted_semi (acc : RAcc) :
    rStep (.quoteInQuoted, acc) ';' = (.startField, saveField acc) := rfl

theorem rStep_quoteInQuoted_cr (acc : RAcc) :
    rStep (.quoteInQuoted, acc) '\r' = (.eatCRNL, endRecord (saveField acc)) := rfl

theorem rStep_eatCRNL_nl (acc : RAcc) : rStep (.eatCRNL, acc) '\n' = (.eatCRNL, acc) := rfl

/-- Feeding the writer-escaped body of a field to the reader in the
in-quotes state appends exactly the original characters — provided the
field contains no escape character (the reader dialect has none, so a
written `\x5c\x5c` would come back doubled). -/
theorem foldl_escContent (cs : List Char) : ∀ (rest : List Char) (acc : RAcc),
    '\\' ∉ cs →
    List.foldl rStep (.inQuoted, acc) (cs.flatMap escWriteChar ++ rest)
      = List.foldl rStep (.inQuoted, { acc with cur := acc.cur ++ cs }) rest := by
  induction cs with
  | nil => intro rest acc _; simp
  | cons c cs ih =>
    intro rest acc h
    have hc : c ≠ '\\' := fun hh => h (hh ▸ List.mem_cons_self c cs)
    have hcs : '\\' ∉ cs := fun hh => h (List.mem_cons_of_mem c hh)
    by_cases hq : c = '"'
    · subst hq
      have key : (('"' :: cs).flatMap escWriteChar ++ rest)
          = '"' :: '"' :: (cs.flatMap escWriteChar ++ rest) := by
        simp [escWriteChar]
      rw [key, List.foldl_cons, List.foldl_cons]
      have st1 : rStep (RState.inQuoted, acc) '"' = (RState.quoteInQuoted, acc) := rfl
      have st2 : rStep (RState.quoteInQuoted, acc) '"'
          = (RState.inQuoted, addChar acc '"') := rfl
      rw [st1, st2, ih rest (addChar acc '"') hcs]
      simp [addChar]
    · have key : ((c :: cs).flatMap escWriteChar ++ rest)
          = c :: (cs.flatMap escWriteChar ++ rest) := by
        simp [escWriteChar, hq, hc]
      rw [key, List.foldl_cons]
      have st1 : rStep (RState.inQuoted, acc) c = (RState.inQuoted, addChar acc c) := by
        simp [rStep, hq]
      rw [st1, ih rest (addChar acc c) hcs]
      simp [addChar]

/-- A whole written field, read from any state that opens a quoted field
on `"`, lands in the quote-in-quoted state with the original characters
appended. -/
theorem foldl_encField (st : RState) (cs : List Char) (rest : List Char) (acc : RAcc)
    (hst : rStep (st, acc) '"' = (.inQuoted, acc)) (hbs : '\\' ∉ cs) :
    List.foldl rStep (st, acc) (encField cs ++ rest)
      = List.foldl rStep (.quoteInQuoted, { acc with cur := acc.cur ++ cs }) rest := by
  have key : encField cs ++ rest = '"' :: (cs.flatMap escWriteChar ++ ('"' :: rest)) := by
    simp [encField]
  rw [key, List.foldl_cons, hst, foldl_escContent cs ('"' :: rest) acc hbs, List.foldl_cons]
  rfl

/-- A whole written row followed by its CR LF terminator, read from any
state that opens a quoted field on `"`, closes the record with exactly the
original field values. -/
theorem foldl_encRow : ∀ (fs : List String) (st : RState) (R : List (List String))
    (F : List String) (rest : List Char),
    (∀ acc : RAcc, rStep (st, acc) '"' = (.inQuoted, acc)) →
    fs ≠ [] → (∀ f ∈ fs, '\\' ∉ f.data) →
    List.foldl rStep (st, ⟨R, F, []⟩) (encRow (fs.map String.data) ++ (CRLF ++ rest))
      = List.foldl rStep (.eatCRNL, ⟨R ++ [F ++ fs], [], []⟩) rest := by
  intro fs
  induction fs with
  | nil => intro st R F rest hst hne hbs; exact absurd rfl hne
  | cons f fs ih =>
    intro st R F rest hst hne hbs
    have hf : '\\' ∉ f.data := hbs f (List.mem_cons_self f fs)
    cases fs with
    | nil =>
      have key : encRow ([f].map String.data) ++ (CRLF ++ rest)
          = encField f.data ++ ('\r' :: '\n' :: rest) := by
        simp [encRow, CRLF]
      rw [key, foldl_encField st f.data _ _ (hst _) hf]
      rw [List.foldl_cons, rStep_quoteInQuoted_cr, List.foldl_cons, rStep_eatCRNL_nl]
      have hacc : endRecord (saveField { (⟨R, F, []⟩ : RAcc) with cur := [] ++ f.data })
          = (⟨R ++ [F ++ [f]], [], []⟩ : RAcc) := by
        simp [saveField, endRecord, mk_data]
      rw [hacc]
    | cons g fs' =>
      have key : encRow ((f :: g :: fs').map String.data) ++ (CRLF ++ rest)
          = encField f.data
              ++ (';' :: (encRow ((g :: fs').map String.data) ++ (CRLF ++ rest))) := by
        simp [encRow]
      rw [key, foldl_encField st f.data _ _ (hst _) hf]
      rw [List.foldl_cons, rStep_quoteInQuoted_semi]
      have hacc : saveField { (⟨R, F, []⟩ : RAcc) with cur := [] ++ f.data }
          = (⟨R, F ++ [f], []⟩ : RAcc) := by
        simp [saveField, mk_data]
      rw [hacc]
      rw [ih RState.startField R (F ++ [f]) rest rStep_startField_quote
        (List.cons_ne_nil g fs') (fun x hx => hbs x (List.mem_cons_of_mem f hx))]
      have hlist : (F ++ [f]) ++ (g :: fs') = F ++ (f :: g :: fs') := by
        simp
      rw [hlist]

/-- All written record rows, read from the state after a record
terminator, append exactly the records' field values. -/
theorem foldl_rows : ∀ (rs : List ResultRecord) (R : List (List String)),
    (∀ r ∈ rs, ∀ f ∈ geminiRecordFields r, '\\' ∉ f.data) →
    List.foldl rStep (.eatCRNL, ⟨R, [], []⟩)
        (rs.flatMap (fun r => encRow ((geminiRecordFields r).map String.data) ++ CRLF))
      = (.eatCRNL, ⟨R ++ rs.map geminiRecordFields, [], []⟩) := by
  intro rs
  induction rs with
  | nil => intro R _; simp
  | cons r rs ih =>
    intro R h
    have key : (r :: rs).flatMap
          (fun r => encRow ((geminiRecordFields r).map String.data) ++ CRLF)
        = encRow ((geminiRecordFields r).map String.data)
            ++ (CRLF ++ rs.flatMap
                (fun r => encRow ((geminiRecordFields r).map String.data) ++ CRLF)) := by
      simp
    rw [key]
    rw [foldl_encRow (geminiRecordFields r) RState.eatCRNL R [] _ rStep_eatCRNL_quote
      (by simp [geminiRecordFields]) (h r (List.mem_cons_self r rs))]
    simp only [List.nil_append]
    rw [ih (R ++ [geminiRecordFields r])
      (fun x hx => h x (List.mem_cons_of_mem r hx))]
    simp

/-- C8 (amended): writing any sequence of `ResultRecord`s with the Result
Writer (semicolon delimiter, every field quoted, escape character `\x5c`,
UTF-8 with byte-order mark) and re-parsing with semicolon delimiter and
full quoting yields exactly the header row followed by the original field
values — including values containing the delimiter, the quote character or
newlines — **provided no field value contains the escape character**: the
re-parsing dialect prescribed by the claim has no escape character, so a
backslash in a field value is written doubled and read back doubled (see
the counterexample). -/
theorem C8_round_trip (recs : List ResultRecord)
    (h : ∀ r ∈ recs, fieldsNoBackslash r = true) :
    parseCsv (writeResultsCsvChars recs)
      = geminiFieldnames :: recs.map geminiRecordFields := by
  have h' : ∀ r ∈ recs, ∀ f ∈ geminiRecordFields r, '\\' ∉ f.data := by
    intro r hr f hf
    have hall := h r hr
    rw [fieldsNoBackslash, List.all_eq_true] at hall
    have hb := hall f hf
    simpa using hb
  unfold parseCsv
  have hshape : writeResultsCsvChars recs
      = BOM :: (encRow (geminiFieldnames.map String.data)
          ++ (CRLF ++ recs.flatMap
              (fun r => encRow ((geminiRecordFields r).map String.data) ++ CRLF))) := by
    simp [writeResultsCsvChars]
  rw [hshape]
  have hbom : stripBOM (BOM :: (encRow (geminiFieldnames.map String.data)
        ++ (CRLF ++ recs.flatMap
            (fun r => encRow ((geminiRecordFields r).map String.data) ++ CRLF))))
      = encRow (geminiFieldnames.map String.data)
        ++ (CRLF ++ recs.flatMap
            (fun r => encRow ((geminiRecordFields r).map String.data) ++ CRLF)) := by
    simp [stripBOM]
  rw [hbom]
  rw [foldl_encRow geminiFieldnames RState.startRecord [] [] _ rStep_startRecord_quote
    (by decide) (by decide)]
  simp only [List.nil_append]
  rw [foldl_rows recs [geminiFieldnames] h']
  rfl

set_option maxRecDepth 40000 in
/-- C8 counterexample: a record whose `response_text` contains one
backslash (`a\x5cb`) does not survive the round trip — the re-parse with
semicolon delimiter and full quoting (and the `csv.reader` default of no
escape character) returns the backslash doubled. -/
theorem C8_counterexample :
    parseCsv (writeResultsCsvChars [recordWithBackslash])
      ≠ [geminiFieldnames, geminiRecordFields recordWithBackslash]
    ∧ parseCsv (writeResultsCsvChars [recordWithBackslash])
      = [geminiFieldnames,
         ["t", "gemini", "m", "2", "n", "c", "nt", "nu", "p1", "q", "a\\\\b", ""]] := by
  constructor
  · decide
  · decide

/-- C8 witness: the amended round-trip theorem at a concrete record whose
fields contain the delimiter, the quote character and a newline. -/
theorem C8_witness :
    parseCsv (writeResultsCsvChars [recordPlain])
      = geminiFieldnames :: [recordPlain].map geminiRecordFields :=
  C8_round_trip [recordPlain] (by decide)

end NoBOLD
